import Mathlib

/-!
Velox-Air streaming server: a shallow embedding.

This file embeds the core streaming pipeline of the Velox-Air LAN
screen-mirroring server in Lean 4 and proves properties of it:

* the data model (`ScreenFrame`, `Tile`, `DeltaFrame`) from
  `src/core/streamable.py`;
* the tile partitioner / delta detector from `src/core/tile_partitioner.py`;
* the binary payload framer (`WebPEncoder.encode` from `src/core/encoder.py`)
  and its inverse (`WebPDeltaDecoder.decode` from `src/core/decoder.py`),
  down to the byte level, with the WebP codec itself (a third-party library,
  PIL) abstracted as function parameters;
* the adaptive governor (`AdaptiveGovernor.update` from
  `src/core/adaptive_governor.py`), with Python floats modelled by exact
  rationals;
* the server registry operations (`get_or_create_engine`,
  `_perform_software_reset`, the viewer handshake of `_ws_handler`) from
  `src/air_server_app.py`, modelled as pure state transformers over a
  `ServerState` record (the async lock, task handles and wall-clock sleeps
  are not modelled); engine construction is modelled from
  `StreamEngine.__init__` and `CaptureFactory.create`, parameterized only
  by the OS driver facts — whether the native and the MSS capture
  constructors succeed at each attempt;
* the per-viewer in-flight-send discipline of `_engine_broadcast_loop` /
  `_safe_send` as a small labelled transition system.
-/

namespace VeloxAir

/-! ## Data model (`src/core/streamable.py`)

A `ScreenFrame` is a 2-D image.  The Python class wraps a NumPy array of
shape `(height, width, channels)`; we model it by its dimensions together
with a pixel-lookup function (a pixel value stands for the bytes of one
pixel; the channel axis is collapsed into the pixel value, which is faithful
because all frames on one capture path share a channel layout). -/

structure ScreenFrame where
  width : Nat
  height : Nat
  pix : Nat → Nat → Nat

/-- The pixel contents of the rectangular region `[y, y+h) × [x, x+w)` of a
frame, row by row — the model of the NumPy slice
`arr[y:y+h, x:x+w]` used by `ScreenFrame.get_tile` and by the partitioner's
region comparison. -/
def ScreenFrame.region (f : ScreenFrame) (x y w h : Nat) : List (List Nat) :=
  (List.range h).map fun i => (List.range w).map fun j => f.pix (y + i) (x + j)

/-- Model of `Tile` from `src/core/streamable.py`: a rectangular region of the screen
with its coordinates, dimensions and pixel data.  Coordinates are `Int`
because the wire decoder can in principle produce negative values (the wire
fields are signed 32-bit); the partitioner only ever creates natural
coordinates. -/
structure Tile where
  x : Int
  y : Int
  width : Int
  height : Int
  data : List (List Nat)
  deriving DecidableEq, Repr

/-- Model of `ScreenFrame.get_tile` from `src/core/streamable.py`: extract a tile by
NumPy slicing. -/
def ScreenFrame.getTile (f : ScreenFrame) (x y w h : Nat) : Tile :=
  ⟨(x : Int), (y : Int), (w : Int), (h : Int), f.region x y w h⟩

/-- Model of `DeltaFrame` from `src/core/streamable.py`: a frame number, the changed
tiles, and the full-frame-fallback flag. -/
structure DeltaFrame where
  frame_number : Nat
  changed_tiles : List Tile
  full_frame_fallback : Bool
  deriving DecidableEq, Repr

/-! ## Tile partitioner (`src/core/tile_partitioner.py`)

`TilePartitioner` holds the previous frame (`_last_frame_np`), the running
frame number and the tile size.  The debug logger, and the unused
`_last_full_frame_data` / `_full_frame_counter` / `_full_frame_interval` /
`_force_full_frame` fields (never read on the paths modelled here), are
omitted. -/

structure PartitionerState where
  tileSize : Nat
  lastFrame : Option ScreenFrame
  frameNumber : Nat

/-- Python's `range(0, stop, step)` for `step > 0` (the partitioner's grid
scan).  For `step = 0` Python raises `ValueError`; we return `[]` and state
theorems under `0 < step` where it matters. -/
def pyRangeStep (stop step : Nat) : List Nat :=
  if step = 0 then []
  else (List.range ((stop + step - 1) / step)).map (· * step)

/-- Whether the grid region at `(x, y)` of size `tw × th` differs between
the current frame and the stored previous frame — the model of
`not np.array_equal(curr_np[y:y+th, x:x+tw], last_np[y:y+th, x:x+tw])`. -/
def regionChanged (cur last : ScreenFrame) (x y tw th : Nat) : Bool :=
  ¬ (cur.region x y tw th = last.region x y tw th)

/-- The scan-ordered list of changed tiles produced by the grid loop of
`TilePartitioner.partition_and_detect_changes` (the `else` branch, lines
50-65 of `src/core/tile_partitioner.py`): outer loop over `y`, inner loop
over `x`, clip the tile to the frame, skip empty tiles, keep a tile iff its
region differs from the previous frame. -/
def gridChangedTiles (ts : Nat) (cur last : ScreenFrame) : List Tile :=
  (pyRangeStep cur.height ts).flatMap fun y =>
    (pyRangeStep cur.width ts).filterMap fun x =>
      let tw := min ts (cur.width - x)
      let th := min ts (cur.height - y)
      if tw = 0 ∨ th = 0 then none
      else if regionChanged cur last x y tw th then some (cur.getTile x y tw th)
      else none

/-- Model of `TilePartitioner.partition_and_detect_changes`: increment the frame
number; if there is no stored frame or the shape changed, emit a single
full-frame tile with `full_frame_fallback = True`; otherwise emit the grid
tiles whose bytes differ.  In both branches the stored reference frame is
replaced by the current frame (`self._last_frame_np = curr_np.copy()`). -/
def partition_and_detect_changes (s : PartitionerState) (cur : ScreenFrame) :
    DeltaFrame × PartitionerState :=
  let fn := s.frameNumber + 1
  let s' : PartitionerState := { s with frameNumber := fn, lastFrame := some cur }
  match s.lastFrame with
  | none =>
      (⟨fn, [cur.getTile 0 0 cur.width cur.height], true⟩, s')
  | some last =>
      if last.width = cur.width ∧ last.height = cur.height then
        (⟨fn, gridChangedTiles s.tileSize cur last, false⟩, s')
      else
        (⟨fn, [cur.getTile 0 0 cur.width cur.height], true⟩, s')

/-- Model of `TilePartitioner.create_full_frame_delta`: a full-screen single-tile
`DeltaFrame` with frame number 0 (the source passes the literal `0`, with
the comment "Frame number 0 for initial frame"); it stores the given frame
as the new reference but does not touch the frame counter. -/
def create_full_frame_delta (s : PartitionerState) (f : ScreenFrame) :
    DeltaFrame × PartitionerState :=
  (⟨0, [f.getTile 0 0 f.width f.height], true⟩, { s with lastFrame := some f })

/-! ## Byte-level serialization (`struct.pack` / `struct.unpack`, little-endian)

Payloads are `List Nat` with entries below 256 (Python `bytes`).  `struct`
integer fields are signed; `struct.pack` raises for out-of-range values, so
the packers below (total functions, reducing modulo 2^width) coincide with
the source exactly on in-range values, and the round-trip theorems carry the
corresponding range hypotheses. -/

/-- The `k` little-endian bytes of `n % 256^k`. -/
def natToLE : Nat → Nat → List Nat
  | 0, _ => []
  | k + 1, n => n % 256 :: natToLE k (n / 256)

/-- The value of a little-endian byte list. -/
def leVal (bs : List Nat) : Nat :=
  bs.foldr (fun b acc => b + 256 * acc) 0

/-- Model of `struct.pack('<i', n)` for `n` in the `i32` range. -/
def packI32 (n : Int) : List Nat := natToLE 4 (n % 4294967296).toNat

/-- Model of `struct.pack('<q', n)` for `n` in the `i64` range. -/
def packI64 (n : Int) : List Nat := natToLE 8 (n % 18446744073709551616).toNat

/-- Signed little-endian decoding of 4 bytes (`struct.unpack('<i', ·)`). -/
def decodeI32 (bs : List Nat) : Int :=
  if leVal bs < 2147483648 then (leVal bs : Int) else (leVal bs : Int) - 4294967296

/-- Signed little-endian decoding of 8 bytes (`struct.unpack('<q', ·)`). -/
def decodeI64 (bs : List Nat) : Int :=
  if leVal bs < 9223372036854775808 then (leVal bs : Int)
  else (leVal bs : Int) - 18446744073709551616

/-- Python's slice `data[a : b]` (step 1): negative bounds count from the
end, and bounds are clamped to the list; a short slice is returned, never an
error. -/
def pySlice (data : List Nat) (a b : Int) : List Nat :=
  (data.take (if b < 0 then max 0 ((data.length : Int) + b)
              else min b (data.length : Int)).toNat).drop
    (if a < 0 then max 0 ((data.length : Int) + a)
     else min a (data.length : Int)).toNat

/-- Model of `struct.unpack('<i', data[off : off+4])`: `None` models the
`struct.error` raised when the slice is not exactly 4 bytes. -/
def readI32 (data : List Nat) (off : Int) : Option Int :=
  if (pySlice data off (off + 4)).length = 4 then
    some (decodeI32 (pySlice data off (off + 4)))
  else none

/-- Model of `struct.unpack('<q', data[off : off+8])`. -/
def readI64 (data : List Nat) (off : Int) : Option Int :=
  if (pySlice data off (off + 8)).length = 8 then
    some (decodeI64 (pySlice data off (off + 8)))
  else none

/-! ## Payload framer (`WebPEncoder.encode`, `src/core/encoder.py` lines 78-116)

The WebP codec itself lives in the third-party PIL library; it is abstracted
as a parameter `tileEnc` mapping tile pixel data to compressed bytes
(`WebPEncoder._encode_tile`).  The thread-pool `executor.map` of the source
preserves the scan order of the tile table, so the serialization below is
order-faithful. -/

/-- The per-tile chunk of the non-fallback wire format:
`i32 x, i32 y, i32 w, i32 h, i32 len, u8[len] image_bytes`. -/
def tileChunk (tileEnc : List (List Nat) → List Nat) (t : Tile) : List Nat :=
  (packI32 t.x ++ packI32 t.y ++ packI32 t.width ++ packI32 t.height) ++
    (packI32 (tileEnc t.data).length ++ tileEnc t.data)

/-- Model of `WebPEncoder.encode`: serialize a `DeltaFrame` with the wall-clock
millisecond timestamp `nowMs` (`int(time.time() * 1000)` sampled at encode
time).  A fallback frame without exactly one tile yields the empty byte
string (`return b""`, lines 88-89); otherwise the payload is the `0x01`
type tag, the `i64` timestamp, and either `num_tiles = 0` with the
full-frame record or `num_tiles` tile records. -/
def encode (tileEnc : List (List Nat) → List Nat) (d : DeltaFrame)
    (nowMs : Int) : List Nat :=
  if d.full_frame_fallback then
    match d.changed_tiles with
    | [t] =>
        0x01 :: (packI64 nowMs ++ packI32 0 ++ packI32 t.width ++
          packI32 t.height ++ packI32 (tileEnc t.data).length ++ tileEnc t.data)
    | _ => []
  else
    0x01 :: (packI64 nowMs ++ packI32 d.changed_tiles.length ++
      d.changed_tiles.flatMap (tileChunk tileEnc))

/-! ## Payload parser (`WebPDeltaDecoder.decode`, `src/core/decoder.py` lines 59-122)

`Image.open` is abstracted as a parameter `imgOpen`; when it fails the
source catches the exception and skips the tile (lines 94-95 and 116-118),
while a short `struct.unpack` slice raises out of `decode` (modelled by
`none`).  The source converts the raw `i64` millisecond timestamp to float
seconds (`raw_ts / 1000.0`); the float division is modelled by exact
division in `ℚ`. -/

/-- The tile loop of `WebPDeltaDecoder.decode` (lines 98-118): read `k`
tile records starting at `off`, skipping tiles whose image bytes fail to
decode. -/
def readTilesLoop (imgOpen : List Nat → Option (List (List Nat)))
    (data : List Nat) : Int → Nat → Option (List Tile)
  | _, 0 => some []
  | off, k + 1 =>
    let hdr := pySlice data off (off + 16)
    if hdr.length = 16 then
      let x := decodeI32 (hdr.take 4)
      let y := decodeI32 ((hdr.drop 4).take 4)
      let w := decodeI32 ((hdr.drop 8).take 4)
      let h := decodeI32 ((hdr.drop 12).take 4)
      match readI32 data (off + 16) with
      | none => none
      | some len =>
        let bytes := pySlice data (off + 20) (off + 20 + len)
        match readTilesLoop imgOpen data (off + 20 + len) k with
        | none => none
        | some rest =>
          match imgOpen bytes with
          | some img => some (⟨x, y, w, h, img⟩ :: rest)
          | none => some rest
    else none

/-- Model of `WebPDeltaDecoder.decode`: parse a payload (with no type tag — the
client strips the first byte before calling the decoder) into a
`DeltaFrame` with `frame_number = 0` and the timestamp in seconds. -/
def decode (imgOpen : List Nat → Option (List (List Nat)))
    (data : List Nat) : Option (DeltaFrame × ℚ) :=
  match readI64 data 0 with
  | none => none
  | some rawTs =>
    let timestamp : ℚ := (rawTs : ℚ) / 1000
    match readI32 data 8 with
    | none => none
    | some numTiles =>
      if numTiles = 0 then
        match readI32 data 12, readI32 data 16 with
        | some fullW, some fullH =>
          match readI32 data 20 with
          | none => none
          | some len =>
            let bytes := pySlice data 24 (24 + len)
            let tiles :=
              match imgOpen bytes with
              | some img => [⟨0, 0, fullW, fullH, img⟩]
              | none => []
            some (⟨0, tiles, true⟩, timestamp)
        | _, _ => none
      else
        match readTilesLoop imgOpen data 12 numTiles.toNat with
        | none => none
        | some tiles => some (⟨0, tiles, false⟩, timestamp)

/-! ## Adaptive governor (`src/core/adaptive_governor.py`)

Python float arithmetic is modelled by exact rationals.  All comparisons
the control law performs (`> 0.1`, the deadband test, the equality with a
clamp bound reached through `max`/`min`) are exact under this modelling. -/

/-- One `CLIENT_STATS` record as consumed by `AdaptiveGovernor.update`;
fields carry the values `client_stats.get(...)` yields (the `.get`
defaults are the concern of the JSON layer and are not modelled). -/
structure ClientStats where
  fps : ℚ
  avg_decode_ms : ℚ
  pending_tiles : ℚ
  mode : String
  battery : ℚ
  is_charging : Bool
  bandwidth_kbps : ℚ
  backpressure : String
  deriving DecidableEq, Repr

/-- The mutable state of `AdaptiveGovernor` (the debug logger and the
cursor position, which `update` never touch, are omitted except for the
foveated radius which `update` mutates on the FLOW tier). -/
structure GovernorState where
  mode : String
  tier : String
  target_fps : ℚ
  target_frame_time : ℚ
  current_quality : ℚ
  min_quality : ℚ
  max_quality : ℚ
  current_tile_size : Nat
  last_update_time : ℚ
  last_applied_quality : ℚ
  quality_deadband : ℚ
  last_mode : String
  last_battery : ℚ
  last_is_charging : Bool
  last_fps : ℚ
  foveated_radius : Int
  min_foveated_radius : Int
  max_foveated_radius : Int
  deriving DecidableEq, Repr

/-- The per-mode table `AdaptiveGovernor.MODES`:
`(fps, min_q, max_q, target_q)`. -/
def governorModes (mode : String) : ℚ × ℚ × ℚ × ℚ :=
  if mode = "GAMING" then (60, 30, 80, 65)
  else if mode = "STUDIO" then (30, 50, 100, 95)
  else (45, 20, 90, 75)

/-- Model of `AdaptiveGovernor.__init__` (unknown modes fall back to BALANCED; the
AIR tier caps the target fps at 20).  `now` stands for the
`time.time()` call that seeds `last_update_time`; `tier` is expected
upper-case (the source applies `.upper()`, its callers pass `'AIR'`). -/
def governorInit (mode tier : String) (now : ℚ) : GovernorState :=
  let m := if mode = "GAMING" ∨ mode = "BALANCED" ∨ mode = "STUDIO" then mode else "BALANCED"
  let cfg := governorModes m
  let tfps := if tier = "AIR" then 20 else cfg.1
  { mode := m
    tier := tier
    target_fps := tfps
    target_frame_time := 1000 / tfps
    current_quality := cfg.2.2.2
    min_quality := cfg.2.1
    max_quality := cfg.2.2.1
    current_tile_size := 128
    last_update_time := now
    last_applied_quality := cfg.2.2.2
    quality_deadband := 5
    last_mode := "NORMAL"
    last_battery := 100
    last_is_charging := true
    last_fps := 0
    foveated_radius := 200
    min_foveated_radius := 80
    max_foveated_radius := 400 }

/-- Model of `AdaptiveGovernor.update` (`src/core/adaptive_governor.py` lines
68-171).  `now` is the `time.time()` sample taken on entry.  An update
within 0.5 s of the previous processed update returns unchanged (the early
`return` at line 78 precedes every mutation). -/
def update (s : GovernorState) (cs : ClientStats) (now : ℚ) : GovernorState :=
  if now - s.last_update_time < 1/2 then s
  else
    let target_fps :=
      if s.tier = "AIR" then (if cs.mode = "SUPER_ECO" then (10 : ℚ) else 20)
      else s.target_fps
    let queue_pressure := max 0 (cs.pending_tiles - 20) / 50
    let decode_pressure0 := max 0 (cs.avg_decode_ms - 10) / 20
    let decode_pressure1 :=
      if cs.bandwidth_kbps > 5000 then decode_pressure0 + 3/10 else decode_pressure0
    let decode_pressure :=
      if cs.backpressure = "heavy" then decode_pressure1 + 1/2 else decode_pressure1
    let total_pressure := queue_pressure + decode_pressure
    let foveated_radius :=
      if s.tier = "FLOW" then
        if total_pressure > 3/10 then
          max s.min_foveated_radius (s.foveated_radius - 40)
        else if total_pressure < 1/20 then
          min s.max_foveated_radius (s.foveated_radius + 10)
        else s.foveated_radius
      else s.foveated_radius
    let new_quality0 :=
      if total_pressure > 1/10 then
        s.current_quality / (1 + min total_pressure (1/2))
      else s.current_quality + 2
    let new_quality := max s.min_quality (min s.max_quality new_quality0)
    let apply_q :=
      |new_quality - s.last_applied_quality| > s.quality_deadband ∨
        (new_quality = s.min_quality ∧ s.last_applied_quality ≠ s.min_quality) ∨
        (new_quality = s.max_quality ∧ s.last_applied_quality ≠ s.max_quality)
    let current_tile_size :=
      if decode_pressure > 1/2 then (if decode_pressure > 4/5 then 512 else 256)
      else if total_pressure < 1/20 then 128
      else s.current_tile_size
    { s with
      last_mode := cs.mode
      last_battery := cs.battery
      last_is_charging := cs.is_charging
      last_fps := cs.fps
      target_fps := target_fps
      target_frame_time := 1000 / target_fps
      foveated_radius := foveated_radius
      current_quality := if apply_q then new_quality else s.current_quality
      last_applied_quality := if apply_q then new_quality else s.last_applied_quality
      current_tile_size := current_tile_size
      last_update_time := now }

/-! ## Server core (`src/air_server_app.py`)

`VeloxAirServerApp` is modelled as a pure state record; viewers are
abstract identifiers.  Engine construction is modelled from the source
(`StreamEngine.__init__` in `src/core/engine.py` and `CaptureFactory.create`
in `src/core/capture.py`); the only parameters are the two facts that
genuinely depend on the OS driver environment at the moment of the call —
whether `import velox_core` plus the `VeloxRustCapture` constructor succeed,
and whether the `MSSCapture` constructor succeeds — one `CaptureEnv` per
construction attempt (the driver state can change across the 0.5 s settling
sleep before the forced-portable retry).  The async registry lock, task
handles, the settling sleeps and the log calls are not modelled; the
recursive forced-portable retry of `get_or_create_engine` is unfolded once
(the source retries at most once, because the retry re-enters with
`force_compat=True`). -/

/-- A connected viewer, by identity. -/
abbrev Viewer := Nat

/-- The slice of a constructed capture backend the registry claims observe:
the `name` attribute set by the backend class (`"VeloxRust (Native)"` at
`capture.py` line 206, `"MSS (CPU)"` at line 112), the monitor index it was
given, and the stored `_optimize_pipeline` flag (`capture.py` line 26 — the
flag is stored on the instance but never read by backend selection). -/
structure Capture where
  name : String
  monitorIdx : Nat
  optimizePipeline : Bool
  deriving DecidableEq, Repr

/-- The OS/driver facts that decide which backend constructor succeeds at
one construction attempt: `nativeOk` is "`import velox_core` succeeds and
`VeloxRustCapture.__init__` returns"; `mssOk` is "`MSSCapture.__init__`
returns". -/
structure CaptureEnv where
  nativeOk : Bool
  mssOk : Bool
  deriving DecidableEq, Repr

/-- The per-engine config slice `get_or_create_engine` builds (deep copy of
the server config with `enable_dxcam_fallback` forced off, and
`optimize_capture_pipeline` cleared when compat mode is forced). -/
structure EngineConfig where
  monitor_id : Nat
  optimize_capture_pipeline : Bool
  enable_dxcam_fallback : Bool
  deriving DecidableEq, Repr

/-- Python's `s.startswith(p)`, decided character by character. -/
def strStartsWith (s p : String) : Bool := p.data.isPrefixOf s.data

/-- Model of `CaptureFactory.create` (`src/core/capture.py` lines 294-308):
the selection tries `import velox_core` and the `VeloxRustCapture`
constructor inside one `try`, returning the native backend whenever both
succeed — the `optimize_pipeline` and `enable_dxcam` arguments are passed
through to the instance but play no part in the selection, and
`DXCAMCapture` is never constructed by the factory; on any failure it falls
back to `MSSCapture` at monitor index `monitor_id + 1`, whose constructor
exception (`none`) propagates out of `create`. -/
def captureFactoryCreate (env : CaptureEnv) (monitor_id : Nat)
    (optimize_pipeline : Bool) (_enable_dxcam : Bool) : Option Capture :=
  if env.nativeOk then some ⟨"VeloxRust (Native)", monitor_id, optimize_pipeline⟩
  else if env.mssOk then some ⟨"MSS (CPU)", monitor_id + 1, optimize_pipeline⟩
  else none

/-- The slice of `StreamEngine` the registry claims observe: the capture
backend and the monitor the engine serves. -/
structure Engine where
  capture : Capture
  monitorId : Nat
  deriving DecidableEq, Repr

/-- Model of `StreamEngine.__init__` (`src/core/engine.py` lines 16-48): it
builds the capture via `CaptureFactory.create` with the config's monitor,
frame rate, resolution and the two policy flags; the partitioner and
encoder constructions cannot raise and the native-audio probe swallows its
exceptions, so the engine constructor raises exactly when the factory
does. -/
def streamEngineInit (env : CaptureEnv) (cfg : EngineConfig) : Option Engine :=
  (captureFactoryCreate env cfg.monitor_id cfg.optimize_capture_pipeline
    cfg.enable_dxcam_fallback).map fun c => ⟨c, cfg.monitor_id⟩

/-- One entry of `self.engines` (`engine_data`): the engine, its viewer
set and the `force_enhancement` flag; the task handles are not modelled. -/
structure EngineSlot where
  engine : Engine
  clients : List Viewer
  force_enhancement : Bool
  deriving DecidableEq, Repr

/-- The mutable server state the modelled operations touch. -/
structure ServerState where
  engines : List (Nat × EngineSlot)
  blacklist : List (Nat × ℚ)
  clientsSending : List Viewer
  dashboards : List Viewer
  cfgMonitorId : Nat
  cfgOptimize : Bool
  cfgEnableDxcam : Bool
  cfgLanguage : String
  deriving DecidableEq, Repr

/-- Remove the entry for key `m` of an association list (`dict.pop`). -/
def removeKey {β : Type} (m : Nat) (l : List (Nat × β)) : List (Nat × β) :=
  l.filter fun p => p.1 ≠ m

/-- Dictionary assignment `d[m] = v`. -/
def setKey {β : Type} (m : Nat) (v : β) (l : List (Nat × β)) : List (Nat × β) :=
  (m, v) :: removeKey m l

/-- The blacklist test of `get_or_create_engine` lines 81-84: the monitor
has an entry younger than 60 s. -/
def blacklistActive (σ : ServerState) (m : Nat) (now : ℚ) : Bool :=
  match σ.blacklist.lookup m with
  | some t => now - t < 60
  | none => false

/-- The engine config built at lines 91-99: deep-copied server config with
`enable_dxcam_fallback = False` (stability policy), the capture
optimization cleared in compat mode, and the target monitor id. -/
def mkEngineCfg (σ : ServerState) (m : Nat) (forceCompat : Bool) : EngineConfig :=
  ⟨m, σ.cfgOptimize && !forceCompat, false⟩

/-- The body of `get_or_create_engine` after the blacklist coercion, with
the coerced flag `forceEff` and the exception path's retry continuation
passed explicitly: return an existing usable slot; otherwise drop any old
slot, construct the engine (`StreamEngine(cfg, debug)` under the driver
environment `env`), record a blacklist entry when a native request silently
produced the portable MSS backend, and register the new slot (with an empty
viewer set and `force_enhancement = True`).  On a constructor exception
(`streamEngineInit env cfg = none`): blacklist the monitor and either retry
forced-portable or propagate (`(·, none)`). -/
def gcoeCore (env : CaptureEnv) (now : ℚ) (m : Nat) (forceEff : Bool)
    (σ : ServerState) (retry : ServerState → ServerState × Option EngineSlot) :
    ServerState × Option EngineSlot :=
  if (σ.engines.lookup m).isSome ∧ forceEff = false then
    (σ, σ.engines.lookup m)
  else
    let cfg := mkEngineCfg σ m forceEff
    let σ₁ := { σ with engines := removeKey m σ.engines }
    match streamEngineInit env cfg with
    | some eng =>
      let σ₂ :=
        if forceEff = false ∧ cfg.optimize_capture_pipeline = true ∧
            strStartsWith eng.capture.name "MSS" = true then
          { σ₁ with blacklist := setKey m now σ₁.blacklist }
        else σ₁
      let slot : EngineSlot := ⟨eng, [], true⟩
      ({ σ₂ with engines := setKey m slot σ₂.engines }, some slot)
    | none =>
      let σ₃ := { σ₁ with blacklist := setKey m now σ₁.blacklist }
      if forceEff then (σ₃, none) else retry σ₃

/-- Model of `VeloxAirServerApp.get_or_create_engine` (`src/air_server_app.py`
lines 77-133): coerce `force_compat` when the monitor's blacklist entry is
younger than 60 s, then run the body; the single retry
(`get_or_create_engine(monitor_id, force_compat=True)` at line 132) is the
inner `gcoeCore` with the flag already true, whose own retry continuation
is dead code.  `env1` is the driver environment at the first construction
attempt and `env2` at the retry, after the 0.5 s settling sleep. -/
def get_or_create_engine (env1 env2 : CaptureEnv) (now : ℚ) (σ : ServerState)
    (m : Nat) (force_compat : Bool) : ServerState × Option EngineSlot :=
  let f := force_compat || blacklistActive σ m now
  gcoeCore env1 now m f σ fun σ' =>
    gcoeCore env2 now m true σ' fun σ'' => (σ'', none)

/-- The `VERSION` text frame of line 184. -/
structure VersionMsg where
  version : String
  monitor_id : Nat
  tier : String
  language : String
  deriving DecidableEq, Repr

/-- A frame sent to the viewer. -/
inductive WsMsg where
  | text (v : VersionMsg)
  | bin (payload : List Nat)
  deriving DecidableEq, Repr

/-- The handshake send sequence of `_ws_handler` for one new viewer:
`protoVersion` is `core.constants.PROTOCOL_VERSION`, `frame` the frame
captured by `get_initial_payload`, `nowMs` the encoder's clock sample, and
`ps` the engine partitioner's state.  The 2 s soft-timeout path (on which
the warning is logged and no binary frame is sent) is the exceptional case
and is not modelled; engine admission (`clients.add`) is modelled in the
registry section. -/
def wsHandshake (protoVersion : String) (tileEnc : List (List Nat) → List Nat)
    (σ : ServerState) (ps : PartitionerState) (frame : ScreenFrame)
    (nowMs : Int) : List WsMsg × PartitionerState :=
  let version : VersionMsg := ⟨protoVersion, σ.cfgMonitorId, "AIR", σ.cfgLanguage⟩
  let (delta, ps') := create_full_frame_delta ps frame
  ([WsMsg.text version, WsMsg.bin (encode tileEnc delta nowMs)], ps')

/-! ## Per-viewer in-flight sends (`_engine_broadcast_loop` / `_safe_send`)

The broadcast loop spawns a guarded send for a viewer only after checking
`ws not in self._clients_sending`, and records the task under that key
(`src/air_server_app.py` lines 362-364); the guard `_safe_send` removes its
own entry in a `finally` on every exit path — success, 1 s timeout, or
transport error (lines 477-483).  These two mutations of the in-flight map
are modelled as a transition system; `tasks v` counts the live guarded send
tasks for viewer `v`. -/

/-- The in-flight-send state: the key set of `self._clients_sending` and
the number of live `_safe_send` tasks per viewer. -/
structure SendState where
  sending : List Viewer
  tasks : Viewer → Nat

/-- The two events that mutate the in-flight map. -/
inductive SendEvent where
  | spawn (v : Viewer)
  | finish (v : Viewer)

/-- One transition.  `spawn v` is the loop body at lines 362-364: when `v`
already has an entry the payload for `v` is dropped (no task is created);
otherwise the entry is set and a guarded task starts.  `finish v` is a live
`_safe_send` task reaching its `finally` (line 483), popping the entry; it
is only enabled when such a task exists. -/
def sendStep (σ : SendState) : SendEvent → Option SendState
  | .spawn v =>
    if v ∈ σ.sending then some σ
    else some ⟨v :: σ.sending, Function.update σ.tasks v (σ.tasks v + 1)⟩
  | .finish v =>
    if σ.tasks v = 0 then none
    else some ⟨σ.sending.erase v, Function.update σ.tasks v (σ.tasks v - 1)⟩

/-- Run a sequence of events from a state; `none` when an event was not
enabled. -/
def runSends (σ : SendState) : List SendEvent → Option SendState
  | [] => some σ
  | e :: es => (sendStep σ e).bind fun σ' => runSends σ' es

/-- The initial state: empty map, no live sends. -/
def initSendState : SendState := ⟨[], fun _ => 0⟩

/-! ## Serialization lemmas -/

/-- The signed 32-bit range of a wire integer field. -/
def inRange32 (n : Int) : Prop := -2147483648 ≤ n ∧ n < 2147483648

lemma natToLE_length (k n : Nat) : (natToLE k n).length = k := by
  induction k generalizing n with
  | zero => rfl
  | succ k ih => simp [natToLE, ih]

lemma leVal_cons (b : Nat) (bs : List Nat) : leVal (b :: bs) = b + 256 * leVal bs := rfl

lemma leVal_natToLE (k n : Nat) : leVal (natToLE k n) = n % 256 ^ k := by
  induction k generalizing n with
  | zero => simp [natToLE, leVal, Nat.mod_one]
  | succ k ih =>
      rw [natToLE, leVal_cons, ih, pow_succ']
      exact Nat.mod_mul.symm

lemma packI32_length (n : Int) : (packI32 n).length = 4 := natToLE_length _ _

lemma packI64_length (n : Int) : (packI64 n).length = 8 := natToLE_length _ _

lemma decodeI32_packI32 {n : Int} (h : inRange32 n) : decodeI32 (packI32 n) = n := by
  obtain ⟨h1, h2⟩ := h
  unfold decodeI32 packI32
  rw [leVal_natToLE, show (256 : Nat) ^ 4 = 4294967296 from by norm_num]
  split_ifs <;> omega

lemma decodeI64_packI64 {n : Int} (h1 : -9223372036854775808 ≤ n)
    (h2 : n < 9223372036854775808) : decodeI64 (packI64 n) = n := by
  unfold decodeI64 packI64
  rw [leVal_natToLE, show (256 : Nat) ^ 8 = 18446744073709551616 from by norm_num]
  split_ifs <;> omega

lemma pySlice_append (pre rest : List Nat) (k : Nat) :
    pySlice (pre ++ rest) (pre.length : Int) ((pre.length : Int) + (k : Int)) =
      rest.take k := by
  unfold pySlice
  rw [if_neg (by omega), if_neg (by omega)]
  have hL : (pre ++ rest).length = pre.length + rest.length := List.length_append _ _
  have h1 : (min ((pre.length : Int)) ((pre ++ rest).length : Int)).toNat = pre.length := by
    rw [hL]; push_cast; omega
  have h2 : (min ((pre.length : Int) + (k : Int)) ((pre ++ rest).length : Int)).toNat =
      pre.length + min k rest.length := by
    rw [hL]; push_cast; omega
  rw [h1, h2, List.take_append_eq_append_take,
    List.take_of_length_le (show pre.length ≤ pre.length + min k rest.length by omega),
    show pre.length + min k rest.length - pre.length = min k rest.length by omega,
    List.drop_left]
  rcases le_total k rest.length with h | h
  · rw [min_eq_left h]
  · rw [min_eq_right h, List.take_of_length_le h, List.take_of_length_le (le_refl _)]

lemma readI32_at (pre rest : List Nat) {n : Int} (h : inRange32 n) :
    readI32 (pre ++ (packI32 n ++ rest)) (pre.length : Int) = some n := by
  unfold readI32
  rw [show ((pre.length : Int) + 4) = (pre.length : Int) + ((4 : Nat) : Int) from by norm_num,
    pySlice_append]
  have ht : (packI32 n ++ rest).take 4 = packI32 n := by
    have h' := List.take_left (packI32 n) rest
    rwa [packI32_length] at h'
  rw [ht, if_pos (packI32_length n), decodeI32_packI32 h]

lemma readI64_at (pre rest : List Nat) {n : Int} (h1 : -9223372036854775808 ≤ n)
    (h2 : n < 9223372036854775808) :
    readI64 (pre ++ (packI64 n ++ rest)) (pre.length : Int) = some n := by
  unfold readI64
  rw [show ((pre.length : Int) + 8) = (pre.length : Int) + ((8 : Nat) : Int) from by norm_num,
    pySlice_append]
  have ht : (packI64 n ++ rest).take 8 = packI64 n := by
    have h' := List.take_left (packI64 n) rest
    rwa [packI64_length] at h'
  rw [ht, if_pos (packI64_length n), decodeI64_packI64 h1 h2]

/-- The shape of a tile after a round trip through the wire format: the
geometry survives; the pixel payload is whatever the codec reproduces
("up to codec loss"). -/
def decodedTile (imgOpen : List Nat → Option (List (List Nat)))
    (tileEnc : List (List Nat) → List Nat) (t : Tile) : Tile :=
  ⟨t.x, t.y, t.width, t.height, (imgOpen (tileEnc t.data)).getD []⟩

/-- The range hypotheses under which one tile record serializes faithfully
(`struct.pack` would raise outside them). -/
def tileInRange (tileEnc : List (List Nat) → List Nat) (t : Tile) : Prop :=
  inRange32 t.x ∧ inRange32 t.y ∧ inRange32 t.width ∧ inRange32 t.height ∧
    ((tileEnc t.data).length : Int) < 2147483648

lemma readTilesLoop_spec (imgOpen : List Nat → Option (List (List Nat)))
    (tileEnc : List (List Nat) → List Nat) :
    ∀ (tiles : List Tile) (pre : List Nat),
      (∀ t ∈ tiles, tileInRange tileEnc t) →
      (∀ t ∈ tiles, (imgOpen (tileEnc t.data)).isSome) →
      readTilesLoop imgOpen (pre ++ tiles.flatMap (tileChunk tileEnc))
        (pre.length : Int) tiles.length =
        some (tiles.map (decodedTile imgOpen tileEnc)) := by
  intro tiles
  induction tiles with
  | nil => intro pre _ _; simp [readTilesLoop]
  | cons t rest ih =>
    intro pre hr ho
    obtain ⟨hx, hy, hw, hh, hl⟩ := hr t (List.mem_cons_self t rest)
    obtain ⟨img, himg⟩ := Option.isSome_iff_exists.mp (ho t (List.mem_cons_self t rest))
    have hrr := fun u hu => hr u (List.mem_cons_of_mem t hu)
    have hor := fun u hu => ho u (List.mem_cons_of_mem t hu)
    rw [List.flatMap_cons]
    set E := tileEnc t.data with hE
    set H := packI32 t.x ++ packI32 t.y ++ packI32 t.width ++ packI32 t.height with hH
    set L := packI32 ((E.length : Int)) with hL
    set F := rest.flatMap (tileChunk tileEnc) with hF
    have hchunk : tileChunk tileEnc t = H ++ (L ++ E) := rfl
    have hHlen : H.length = 16 := by
      simp [hH, List.length_append, packI32_length]
    have hLlen : L.length = 4 := packI32_length _
    set data := pre ++ (tileChunk tileEnc t ++ F) with hdata
    -- the 16-byte header slice
    have hslice : pySlice data ((pre.length : Int)) ((pre.length : Int) + 16) = H := by
      rw [hdata, show ((pre.length : Int) + 16) = (pre.length : Int) + ((16 : Nat) : Int)
          from by norm_num, pySlice_append, hchunk, List.append_assoc]
      rw [← hHlen]
      exact List.take_left _ _
    -- the four header fields
    have hq1 : H.take 4 = packI32 t.x := by
      rw [hH, List.append_assoc, List.append_assoc]
      have h' := List.take_left (packI32 t.x)
        (packI32 t.y ++ (packI32 t.width ++ packI32 t.height))
      rwa [packI32_length] at h'
    have hd4 : H.drop 4 = packI32 t.y ++ (packI32 t.width ++ packI32 t.height) := by
      rw [hH, List.append_assoc, List.append_assoc]
      have h' := List.drop_left (packI32 t.x)
        (packI32 t.y ++ (packI32 t.width ++ packI32 t.height))
      rwa [packI32_length] at h'
    have hq2 : (H.drop 4).take 4 = packI32 t.y := by
      rw [hd4]
      have h' := List.take_left (packI32 t.y) (packI32 t.width ++ packI32 t.height)
      rwa [packI32_length] at h'
    have hd8 : H.drop 8 = packI32 t.width ++ packI32 t.height := by
      rw [hH, List.append_assoc]
      have h' := List.drop_left (packI32 t.x ++ packI32 t.y)
        (packI32 t.width ++ packI32 t.height)
      rwa [List.length_append, packI32_length, packI32_length] at h'
    have hq3 : (H.drop 8).take 4 = packI32 t.width := by
      rw [hd8]
      have h' := List.take_left (packI32 t.width) (packI32 t.height)
      rwa [packI32_length] at h'
    have hq4 : (H.drop 12).take 4 = packI32 t.height := by
      have hd12 : H.drop 12 = packI32 t.height := by
        rw [hH]
        have h' := List.drop_left (packI32 t.x ++ packI32 t.y ++ packI32 t.width)
          (packI32 t.height)
        rwa [List.length_append, List.length_append, packI32_length, packI32_length,
          packI32_length] at h'
      rw [hd12, ← packI32_length t.height, List.take_length]
    -- the tile-data length field
    have hread : readI32 data ((pre.length : Int) + 16) = some ((E.length : Int)) := by
      have hoff : ((pre.length : Int) + 16) = (((pre ++ H).length : Int)) := by
        simp [List.length_append, hHlen]
      have hdata2 : data = (pre ++ H) ++ (L ++ (E ++ F)) := by
        simp [hdata, hchunk, List.append_assoc]
      rw [hdata2, hoff, hL, readI32_at _ _ ⟨by omega, hl⟩]
    -- the tile bytes
    have hbytes : pySlice data ((pre.length : Int) + 20)
        ((pre.length : Int) + 20 + ((E.length : Int))) = E := by
      have hoff : ((pre.length : Int) + 20) = (((pre ++ H ++ L).length : Int)) := by
        simp [List.length_append, hHlen, hLlen]
      have hdata3 : data = (pre ++ H ++ L) ++ (E ++ F) := by
        simp [hdata, hchunk, List.append_assoc]
      rw [hdata3, hoff, show (((pre ++ H ++ L).length : Int) + ((E.length : Int))) =
          (((pre ++ H ++ L).length : Int) + ((E.length : Nat) : Int)) from rfl, pySlice_append]
      exact (by rw [← List.take_length (l := E)]; exact List.take_left _ _ :
        (E ++ F).take E.length = E)
    -- the recursive call
    have hrec : readTilesLoop imgOpen data ((pre.length : Int) + 20 + ((E.length : Int)))
        rest.length = some (rest.map (decodedTile imgOpen tileEnc)) := by
      have hoff : ((pre.length : Int) + 20 + ((E.length : Int))) =
          (((pre ++ tileChunk tileEnc t).length : Int)) := by
        simp [List.length_append, hchunk, hHlen, hLlen]
        ring
      have hdata4 : data = (pre ++ tileChunk tileEnc t) ++ F := by
        simp [hdata, List.append_assoc]
      rw [hdata4, hoff, hF]
      exact ih (pre ++ tileChunk tileEnc t) hrr hor
    -- assemble
    simp only [List.length_cons, readTilesLoop, hslice, hHlen, if_pos]
    rw [hq1, hq2, hq3, hq4, decodeI32_packI32 hx, decodeI32_packI32 hy,
      decodeI32_packI32 hw, decodeI32_packI32 hh]
    simp only [hread, hbytes, hrec, himg, decodedTile, List.map_cons, Option.getD_some]

/-- C2 (counterexample): applying `WebPDeltaDecoder.decode` directly to
`WebPEncoder.encode(d)` — without first stripping the `0x01` type-tag byte,
as the claim's composition does — fails (`struct.unpack` raises, modelled by
`none`) already on a one-tile delta frame: the decoder misreads the tag byte
as part of the timestamp and the stray high timestamp byte inflates
`num_tiles` to 256. -/
theorem decode_encode_untagged_fails :
    decode (fun _ => some [[0]])
      (encode (fun _ => [9, 9]) ⟨7, [⟨5, 6, 2, 2, [[1, 2], [3, 4]]⟩], false⟩ 0) = none := by
  decide

/-- C2 (amended): for every well-formed `DeltaFrame` `d` — a fallback frame
carries exactly one tile anchored at the origin, a non-fallback frame at
least one tile, all wire fields in `i32` range, and the codec reproduces an
image from every encoded tile — applying `WebPDeltaDecoder.decode` to
`WebPEncoder.encode(d)` *with the leading type-tag byte stripped* (as the
client's receive loop does) yields a `DeltaFrame` with the same
`full_frame_fallback` flag, the same number of tiles, identical
`(x, y, width, height)` for each tile in the same order, and the
millisecond timestamp sampled at encode time (returned divided by 1000, as
seconds). -/
theorem decode_encode_roundtrip
    (tileEnc : List (List Nat) → List Nat) (imgOpen : List Nat → Option (List (List Nat)))
    (d : DeltaFrame) (nowMs : Int)
    (hts1 : -9223372036854775808 ≤ nowMs) (hts2 : nowMs < 9223372036854775808)
    (hfb : d.full_frame_fallback = true → ∃ t, d.changed_tiles = [t] ∧ t.x = 0 ∧ t.y = 0)
    (hne : d.full_frame_fallback = false → d.changed_tiles ≠ [])
    (hnum : ((d.changed_tiles.length : Int)) < 2147483648)
    (hrange : ∀ t ∈ d.changed_tiles, tileInRange tileEnc t)
    (hopen : ∀ t ∈ d.changed_tiles, (imgOpen (tileEnc t.data)).isSome) :
    decode imgOpen ((encode tileEnc d nowMs).drop 1) =
      some (⟨0, d.changed_tiles.map (decodedTile imgOpen tileEnc), d.full_frame_fallback⟩,
        (nowMs : ℚ) / 1000) := by
  cases hfbv : d.full_frame_fallback with
  | false =>
    have hne' := hne hfbv
    have hdrop : (encode tileEnc d nowMs).drop 1 =
        packI64 nowMs ++ packI32 ((d.changed_tiles.length : Int)) ++
          d.changed_tiles.flatMap (tileChunk tileEnc) := by
      simp [encode, hfbv]
    have h1 : readI64 (packI64 nowMs ++ packI32 ((d.changed_tiles.length : Int)) ++
        d.changed_tiles.flatMap (tileChunk tileEnc)) 0 = some nowMs := by
      have h := readI64_at []
        (packI32 ((d.changed_tiles.length : Int)) ++ d.changed_tiles.flatMap (tileChunk tileEnc))
        hts1 hts2
      simpa [List.append_assoc] using h
    have h2 : readI32 (packI64 nowMs ++ packI32 ((d.changed_tiles.length : Int)) ++
        d.changed_tiles.flatMap (tileChunk tileEnc)) 8 = some ((d.changed_tiles.length : Int)) := by
      have h := readI32_at (packI64 nowMs) (d.changed_tiles.flatMap (tileChunk tileEnc))
        (n := ((d.changed_tiles.length : Int))) ⟨by omega, hnum⟩
      simpa [packI64_length, List.append_assoc] using h
    have h3 : readTilesLoop imgOpen (packI64 nowMs ++ packI32 ((d.changed_tiles.length : Int)) ++
        d.changed_tiles.flatMap (tileChunk tileEnc)) 12 d.changed_tiles.length =
        some (d.changed_tiles.map (decodedTile imgOpen tileEnc)) := by
      have h := readTilesLoop_spec imgOpen tileEnc d.changed_tiles
        (packI64 nowMs ++ packI32 ((d.changed_tiles.length : Int))) hrange hopen
      simpa [packI64_length, packI32_length, List.length_append, List.append_assoc] using h
    have hn0 : ((d.changed_tiles.length : Int)) ≠ 0 := by
      have hlen : d.changed_tiles.length ≠ 0 := by
        simpa [List.length_eq_zero] using hne'
      exact_mod_cast hlen
    rw [hdrop]
    simp only [decode, h1, h2, if_neg hn0, Int.toNat_natCast, h3, hfbv]
  | true =>
    obtain ⟨t, htl, hx0, hy0⟩ := hfb hfbv
    obtain ⟨img, himg⟩ := Option.isSome_iff_exists.mp
      (hopen t (by rw [htl]; exact List.mem_cons_self t []))
    obtain ⟨hxr, hyr, hwr, hhr, hlr⟩ := hrange t (by rw [htl]; exact List.mem_cons_self t [])
    have hdrop : (encode tileEnc d nowMs).drop 1 =
        packI64 nowMs ++ packI32 0 ++ packI32 t.width ++ packI32 t.height ++
          packI32 (((tileEnc t.data).length : Int)) ++ tileEnc t.data := by
      simp [encode, hfbv, htl]
    have h1 : readI64 (packI64 nowMs ++ packI32 0 ++ packI32 t.width ++ packI32 t.height ++
        packI32 (((tileEnc t.data).length : Int)) ++ tileEnc t.data) 0 = some nowMs := by
      have h := readI64_at [] (packI32 0 ++ (packI32 t.width ++ (packI32 t.height ++
        (packI32 (((tileEnc t.data).length : Int)) ++ tileEnc t.data)))) hts1 hts2
      simpa [List.append_assoc] using h
    have h2 : readI32 (packI64 nowMs ++ packI32 0 ++ packI32 t.width ++ packI32 t.height ++
        packI32 (((tileEnc t.data).length : Int)) ++ tileEnc t.data) 8 = some 0 := by
      have h := readI32_at (packI64 nowMs) (packI32 t.width ++ (packI32 t.height ++
        (packI32 (((tileEnc t.data).length : Int)) ++ tileEnc t.data)))
        (n := 0) ⟨by omega, by omega⟩
      simpa [packI64_length, List.append_assoc] using h
    have h3 : readI32 (packI64 nowMs ++ packI32 0 ++ packI32 t.width ++ packI32 t.height ++
        packI32 (((tileEnc t.data).length : Int)) ++ tileEnc t.data) 12 = some t.width := by
      have h := readI32_at (packI64 nowMs ++ packI32 0) (packI32 t.height ++
        (packI32 (((tileEnc t.data).length : Int)) ++ tileEnc t.data)) (n := t.width) hwr
      simpa [packI64_length, packI32_length, List.length_append, List.append_assoc] using h
    have h4 : readI32 (packI64 nowMs ++ packI32 0 ++ packI32 t.width ++ packI32 t.height ++
        packI32 (((tileEnc t.data).length : Int)) ++ tileEnc t.data) 16 = some t.height := by
      have h := readI32_at (packI64 nowMs ++ packI32 0 ++ packI32 t.width)
        (packI32 (((tileEnc t.data).length : Int)) ++ tileEnc t.data) (n := t.height) hhr
      simpa [packI64_length, packI32_length, List.length_append, List.append_assoc] using h
    have h5 : readI32 (packI64 nowMs ++ packI32 0 ++ packI32 t.width ++ packI32 t.height ++
        packI32 (((tileEnc t.data).length : Int)) ++ tileEnc t.data) 20 =
        some (((tileEnc t.data).length : Int)) := by
      have h := readI32_at (packI64 nowMs ++ packI32 0 ++ packI32 t.width ++ packI32 t.height)
        (tileEnc t.data) (n := (((tileEnc t.data).length : Int))) ⟨by omega, hlr⟩
      simpa [packI64_length, packI32_length, List.length_append, List.append_assoc] using h
    have h6 : pySlice (packI64 nowMs ++ packI32 0 ++ packI32 t.width ++ packI32 t.height ++
        packI32 (((tileEnc t.data).length : Int)) ++ tileEnc t.data) 24
        (24 + ((tileEnc t.data).length : Int)) = tileEnc t.data := by
      have h := pySlice_append (packI64 nowMs ++ packI32 0 ++ packI32 t.width ++
        packI32 t.height ++ packI32 (((tileEnc t.data).length : Int))) (tileEnc t.data)
        (tileEnc t.data).length
      simp only [packI64_length, packI32_length, List.length_append, List.take_length] at h
      simpa [List.append_assoc] using h
    rw [hdrop]
    simp only [decode, h1, h2, if_pos rfl, eq_self_iff_true, if_true, h3, h4, h5, h6, himg,
      hfbv, htl, List.map_cons, List.map_nil, decodedTile, Option.getD_some, hx0, hy0]

/-- C2 (witness): the round-trip theorem instantiated on a concrete
full-frame fallback delta. -/
theorem decode_encode_roundtrip_witness :
    decode (fun _ => some [[0]])
      ((encode (fun _ => [9, 9]) ⟨3, [⟨0, 0, 2, 2, [[1, 2], [3, 4]]⟩], true⟩ 1234).drop 1) =
      some (⟨0, [⟨0, 0, 2, 2, [[0]]⟩], true⟩, (1234 : ℚ) / 1000) := by
  have h := decode_encode_roundtrip (fun _ => [9, 9]) (fun _ => some [[0]])
    ⟨3, [⟨0, 0, 2, 2, [[1, 2], [3, 4]]⟩], true⟩ 1234 (by norm_num) (by norm_num)
    (fun _ => ⟨⟨0, 0, 2, 2, [[1, 2], [3, 4]]⟩, rfl, rfl, rfl⟩)
    (by intro h; simp at h)
    (by norm_num)
    (by intro u hu; simp at hu; subst hu; exact ⟨⟨by norm_num, by norm_num⟩,
      ⟨by norm_num, by norm_num⟩, ⟨by norm_num, by norm_num⟩, ⟨by norm_num, by norm_num⟩,
      by norm_num⟩)
    (by intro u hu; rfl)
  simpa [decodedTile] using h

/-- C10: for every `DeltaFrame` whose `full_frame_fallback` flag is set but
whose `changed_tiles` list does not contain exactly one tile,
`WebPEncoder.encode` returns the empty byte string — no type tag and no
timestamp — rather than raising (the early `return b""` of
`src/core/encoder.py` lines 88-89; `encode` is a total function here, so no
error path exists). -/
theorem encode_malformed_fallback_is_empty (tileEnc : List (List Nat) → List Nat)
    (d : DeltaFrame) (nowMs : Int) (hfb : d.full_frame_fallback = true)
    (hlen : d.changed_tiles.length ≠ 1) : encode tileEnc d nowMs = [] := by
  cases hd : d.changed_tiles with
  | nil => simp [encode, hfb, hd]
  | cons a l =>
    cases l with
    | nil => exact absurd (by rw [hd]; rfl) hlen
    | cons b l2 => simp [encode, hfb, hd]

/-- C10 (witness): a fallback frame with zero tiles encodes to the empty
payload. -/
theorem encode_malformed_fallback_is_empty_witness :
    encode (fun _ => [9]) ⟨1, [], true⟩ 999 = [] :=
  encode_malformed_fallback_is_empty (fun _ => [9]) ⟨1, [], true⟩ 999 rfl (by decide)

/-- C9 (counterexample): after one `partition_and_detect_changes` call the
partitioner's frame number is 1, but a subsequent keyframe produced by
`create_full_frame_delta` carries frame number 0 (the source passes the
literal `0`), so the keyframe's `frame_number` is not greater than the
preceding delta's. -/
theorem create_full_frame_delta_not_monotonic :
    ¬ ((create_full_frame_delta
          (partition_and_detect_changes ⟨64, none, 0⟩ ⟨2, 1, fun _ _ => 0⟩).2
          ⟨2, 1, fun _ _ => 0⟩).1.frame_number >
        (partition_and_detect_changes ⟨64, none, 0⟩ ⟨2, 1, fun _ _ => 0⟩).1.frame_number) := by
  decide

/-- C9 (amended): `frame_number` is strictly increasing across successive
`partition_and_detect_changes` outputs of one partitioner (each call
returns and stores the previous frame number plus one), while
`create_full_frame_delta` always returns frame number 0 and leaves the
stored counter unchanged. -/
theorem frame_number_behavior (s : PartitionerState) (cur f : ScreenFrame) :
    (partition_and_detect_changes s cur).1.frame_number = s.frameNumber + 1 ∧
    (partition_and_detect_changes s cur).2.frameNumber = s.frameNumber + 1 ∧
    (create_full_frame_delta s f).1.frame_number = 0 ∧
    (create_full_frame_delta s f).2.frameNumber = s.frameNumber := by
  refine ⟨?_, ?_, rfl, rfl⟩ <;>
  · cases h : s.lastFrame with
    | none => simp [partition_and_detect_changes, h]
    | some last =>
      simp only [partition_and_detect_changes, h]
      split <;> rfl

/-! ### The single-in-flight invariant (C8) -/

/-- The inductive invariant: each viewer has at most one live guarded send,
and a viewer with a live send has an entry in the map. -/
def SendInv (σ : SendState) : Prop :=
  ∀ v, σ.tasks v ≤ 1 ∧ (σ.tasks v = 1 → v ∈ σ.sending)

lemma sendStep_inv {σ σ' : SendState} {e : SendEvent} (hinv : SendInv σ)
    (h : sendStep σ e = some σ') : SendInv σ' := by
  cases e with
  | spawn v =>
    by_cases hmem : v ∈ σ.sending
    · simp only [sendStep, if_pos hmem, Option.some.injEq] at h
      exact h ▸ hinv
    · simp only [sendStep, if_neg hmem, Option.some.injEq] at h
      subst h
      intro u
      rcases eq_or_ne u v with rfl | hne
      · have h0 : σ.tasks u = 0 := by
          rcases Nat.lt_or_ge (σ.tasks u) 1 with h' | h'
          · omega
          · exact absurd ((hinv u).2 (by have := (hinv u).1; omega)) hmem
        constructor
        · simp [Function.update_same, h0]
        · intro _; exact List.mem_cons_self _ _
      · constructor
        · simpa [Function.update_noteq hne] using (hinv u).1
        · intro hu
          exact List.mem_cons_of_mem _ ((hinv u).2 (by simpa [Function.update_noteq hne] using hu))
  | finish v =>
    by_cases h0 : σ.tasks v = 0
    · simp [sendStep, h0] at h
    · simp only [sendStep, if_neg h0, Option.some.injEq] at h
      subst h
      intro u
      rcases eq_or_ne u v with rfl | hne
      · constructor
        · simp only [Function.update_same]
          have := (hinv u).1
          omega
        · intro hu
          simp only [Function.update_same] at hu
          have := (hinv u).1
          omega
      · constructor
        · simpa [Function.update_noteq hne] using (hinv u).1
        · intro hu
          have hmem := (hinv u).2 (by simpa [Function.update_noteq hne] using hu)
          exact (List.mem_erase_of_ne hne).mpr hmem

lemma runSends_inv {σ σ' : SendState} {evs : List SendEvent} (hinv : SendInv σ)
    (h : runSends σ evs = some σ') : SendInv σ' := by
  induction evs generalizing σ with
  | nil => simp only [runSends, Option.some.injEq] at h; exact h ▸ hinv
  | cons e es ih =>
    simp only [runSends, Option.bind_eq_bind] at h
    rcases Option.bind_eq_some.mp h with ⟨σ₁, hstep, hrest⟩
    exact ih (sendStep_inv hinv hstep) hrest

/-- C8: at every reachable point each viewer has at most one in-flight
send: along any event sequence in which the broadcast loop spawns a guarded
send only for a viewer with no entry in the in-flight map (lines 362-364)
and each `_safe_send` guard removes its own entry on its sole exit path —
success, timeout or transport error alike (the `finally` at line 483) — the
number of live send tasks per viewer never exceeds one. -/
theorem single_in_flight_invariant (evs : List SendEvent) (v : Viewer) :
    (runSends initSendState evs).elim True (fun σ => σ.tasks v ≤ 1) := by
  cases h : runSends initSendState evs with
  | none => exact trivial
  | some σ =>
    have hinit : SendInv initSendState := fun u => ⟨by simp [initSendState], by simp [initSendState]⟩
    exact (runSends_inv hinit h v).1

/-! ### Partitioner correctness (C3) -/

lemma mem_pyRangeStep {stop step x : Nat} (hs : 0 < step) :
    x ∈ pyRangeStep stop step ↔ step ∣ x ∧ x < stop := by
  unfold pyRangeStep
  rw [if_neg (by omega)]
  simp only [List.mem_map, List.mem_range]
  constructor
  · rintro ⟨i, hi, rfl⟩
    refine ⟨dvd_mul_left step i, ?_⟩
    have h2 : (i + 1) * step ≤ stop + step - 1 := (Nat.le_div_iff_mul_le hs).mp hi
    have h3 : i * step + step ≤ stop + step - 1 := by rwa [Nat.succ_mul] at h2
    generalize i * step = a at h3 ⊢
    omega
  · rintro ⟨⟨i, rfl⟩, hlt⟩
    refine ⟨i, ?_, mul_comm i step⟩
    rw [Nat.lt_iff_add_one_le, Nat.le_div_iff_mul_le hs, Nat.succ_mul]
    have h4 : i * step = step * i := mul_comm i step
    generalize hgen : i * step = a
    rw [hgen] at h4
    omega

/-- C3: when a prior frame of the same shape is stored,
`partition_and_detect_changes` returns exactly the grid tiles — positions
that are multiples of `tile_size` inside the frame, clipped at the right
and bottom edges — whose pixel bytes differ from the corresponding region
of the prior frame; with no prior frame or a changed shape it returns a
single full-frame tile with `full_frame_fallback = true`; and in every
case the stored reference frame is replaced with the current frame, even
when no tiles changed. -/
theorem partition_and_detect_changes_spec (s : PartitionerState) (cur : ScreenFrame)
    (hts : 0 < s.tileSize) :
    (∀ last, s.lastFrame = some last → last.width = cur.width → last.height = cur.height →
      (partition_and_detect_changes s cur).1.full_frame_fallback = false ∧
      ∀ t : Tile, t ∈ (partition_and_detect_changes s cur).1.changed_tiles ↔
        ∃ x y : Nat, s.tileSize ∣ x ∧ s.tileSize ∣ y ∧ x < cur.width ∧ y < cur.height ∧
          cur.region x y (min s.tileSize (cur.width - x)) (min s.tileSize (cur.height - y)) ≠
            last.region x y (min s.tileSize (cur.width - x)) (min s.tileSize (cur.height - y)) ∧
          t = cur.getTile x y (min s.tileSize (cur.width - x))
            (min s.tileSize (cur.height - y))) ∧
    ((s.lastFrame = none ∨
        ∃ last, s.lastFrame = some last ∧ ¬(last.width = cur.width ∧ last.height = cur.height)) →
      (partition_and_detect_changes s cur).1.changed_tiles =
        [cur.getTile 0 0 cur.width cur.height] ∧
      (partition_and_detect_changes s cur).1.full_frame_fallback = true) ∧
    (partition_and_detect_changes s cur).2.lastFrame = some cur := by
  refine ⟨?_, ?_, ?_⟩
  · intro last hlast hwidth hheight
    simp only [partition_and_detect_changes, hlast]
    rw [if_pos (show last.width = cur.width ∧ last.height = cur.height from ⟨hwidth, hheight⟩)]
    refine ⟨rfl, fun t => ?_⟩
    simp only [gridChangedTiles, List.mem_flatMap, List.mem_filterMap,
      mem_pyRangeStep hts]
    constructor
    · rintro ⟨y, ⟨hdy, hy⟩, x, ⟨hdx, hx⟩, hsome⟩
      have htw : ¬ (min s.tileSize (cur.width - x) = 0 ∨ min s.tileSize (cur.height - y) = 0) := by
        push_neg
        omega
      rw [if_neg htw] at hsome
      by_cases hch : regionChanged cur last x y (min s.tileSize (cur.width - x))
          (min s.tileSize (cur.height - y)) = true
      · rw [if_pos hch, Option.some.injEq] at hsome
        refine ⟨x, y, hdx, hdy, hx, hy, ?_, hsome.symm⟩
        simpa [regionChanged, decide_eq_true_iff] using hch
      · rw [if_neg hch] at hsome
        exact absurd hsome (by simp)
    · rintro ⟨x, y, hdx, hdy, hx, hy, hne, rfl⟩
      refine ⟨y, ⟨hdy, hy⟩, x, ⟨hdx, hx⟩, ?_⟩
      have htw : ¬ (min s.tileSize (cur.width - x) = 0 ∨ min s.tileSize (cur.height - y) = 0) := by
        push_neg
        omega
      rw [if_neg htw, if_pos (by simpa [regionChanged, decide_eq_true_iff] using hne)]
  · rintro (hnone | ⟨last, hlast, hshape⟩)
    · simp [partition_and_detect_changes, hnone]
    · simp [partition_and_detect_changes, hlast, hshape]
  · cases h : s.lastFrame with
    | none => simp [partition_and_detect_changes, h]
    | some last =>
      simp only [partition_and_detect_changes, h]
      split <;> rfl

/-- C3 (witness): on a concrete 3×3 frame pair differing in one pixel with
tile size 2, the reference frame is replaced by the current frame. -/
theorem partition_and_detect_changes_spec_witness :
    (partition_and_detect_changes ⟨2, some ⟨3, 3, fun _ _ => 0⟩, 5⟩
        ⟨3, 3, fun i j => if i = 0 ∧ j = 0 then 1 else 0⟩).2.lastFrame =
      some ⟨3, 3, fun i j => if i = 0 ∧ j = 0 then 1 else 0⟩ :=
  (partition_and_detect_changes_spec ⟨2, some ⟨3, 3, fun _ _ => 0⟩, 5⟩
    ⟨3, 3, fun i j => if i = 0 ∧ j = 0 then 1 else 0⟩ (by decide)).2.2

/-! ### Viewer handshake (C1) -/

/-- The first byte (type tag) of a frame, `none` for text frames. -/
def wsFirstByte : WsMsg → Option Nat
  | .text _ => none
  | .bin p => p.head?

/-- C1 (counterexample): on a concrete connection the handshake sequence is
the `VERSION` text frame followed by one binary payload whose first byte is
`0x01`, not `0x02`: `_ws_handler` sends `get_initial_payload()` unmodified
(line 200), and the encoder always emits the `0x01` tag — only the
broadcast loop's keyframe path rewrites byte 0 to `0x02`. -/
theorem handshake_initial_payload_tag_is_not_keyframe :
    ((wsHandshake "6.0" (fun _ => [9, 9]) ⟨[], [], [], [], 0, true, false, "zh_TW"⟩
        ⟨64, none, 0⟩ ⟨2, 1, fun _ _ => 0⟩ 0).1.map wsFirstByte = [none, some 0x01]) ∧
      some (0x01 : Nat) ≠ some 0x02 := by
  decide

/-- C1 (amended): after the `VERSION` text frame (carrying the configured
monitor id, tier `"AIR"` and language), the handshake sends exactly one
binary payload — before the message loop starts, hence before any delta —
whose first byte is `0x01` (the delta tag: the handshake path does not
apply the `0x02` keyframe rewrite), whose `num_tiles` field is 0, and whose
`full_w × full_h` equal the captured monitor frame's dimensions. -/
theorem handshake_initial_payload_spec (pv : String)
    (tileEnc : List (List Nat) → List Nat) (σ : ServerState) (ps : PartitionerState)
    (frame : ScreenFrame) (nowMs : Int)
    (hw : ((frame.width : Int)) < 2147483648) (hh : ((frame.height : Int)) < 2147483648) :
    (wsHandshake pv tileEnc σ ps frame nowMs).1 =
      [WsMsg.text ⟨pv, σ.cfgMonitorId, "AIR", σ.cfgLanguage⟩,
       WsMsg.bin (encode tileEnc (create_full_frame_delta ps frame).1 nowMs)] ∧
    (encode tileEnc (create_full_frame_delta ps frame).1 nowMs).head? = some 0x01 ∧
    readI32 (encode tileEnc (create_full_frame_delta ps frame).1 nowMs) 9 = some 0 ∧
    readI32 (encode tileEnc (create_full_frame_delta ps frame).1 nowMs) 13 =
      some ((frame.width : Int)) ∧
    readI32 (encode tileEnc (create_full_frame_delta ps frame).1 nowMs) 17 =
      some ((frame.height : Int)) := by
  have hpay : encode tileEnc (create_full_frame_delta ps frame).1 nowMs =
      0x01 :: (packI64 nowMs ++ packI32 0 ++ packI32 ((frame.width : Int)) ++
        packI32 ((frame.height : Int)) ++
        packI32 (((tileEnc (frame.region 0 0 frame.width frame.height)).length : Int)) ++
        tileEnc (frame.region 0 0 frame.width frame.height)) := rfl
  refine ⟨rfl, by rw [hpay]; rfl, ?_, ?_, ?_⟩
  · rw [hpay]
    have h := readI32_at (0x01 :: packI64 nowMs)
      (packI32 ((frame.width : Int)) ++ (packI32 ((frame.height : Int)) ++
        (packI32 (((tileEnc (frame.region 0 0 frame.width frame.height)).length : Int)) ++
          tileEnc (frame.region 0 0 frame.width frame.height))))
      (n := 0) ⟨by omega, by omega⟩
    simpa [packI64_length, List.append_assoc] using h
  · rw [hpay]
    have h := readI32_at (0x01 :: (packI64 nowMs ++ packI32 0))
      (packI32 ((frame.height : Int)) ++
        (packI32 (((tileEnc (frame.region 0 0 frame.width frame.height)).length : Int)) ++
          tileEnc (frame.region 0 0 frame.width frame.height)))
      (n := ((frame.width : Int))) ⟨by omega, hw⟩
    simpa [packI64_length, packI32_length, List.length_append, List.append_assoc] using h
  · rw [hpay]
    have h := readI32_at (0x01 :: (packI64 nowMs ++ packI32 0 ++ packI32 ((frame.width : Int))))
      (packI32 (((tileEnc (frame.region 0 0 frame.width frame.height)).length : Int)) ++
        tileEnc (frame.region 0 0 frame.width frame.height))
      (n := ((frame.height : Int))) ⟨by omega, hh⟩
    simpa [packI64_length, packI32_length, List.length_append, List.append_assoc] using h

/-- C1 (witness): the `full_w` field of a concrete handshake payload is the
frame width. -/
theorem handshake_initial_payload_spec_witness :
    readI32 (encode (fun _ => [9, 9])
      (create_full_frame_delta ⟨64, none, 0⟩ ⟨2, 1, fun _ _ => 0⟩).1 0) 13 = some 2 := by
  have h := (handshake_initial_payload_spec "6.0" (fun _ => [9, 9])
    ⟨[], [], [], [], 0, true, false, "zh_TW"⟩ ⟨64, none, 0⟩ ⟨2, 1, fun _ _ => 0⟩ 0
    (by norm_num) (by norm_num)).2.2.2.1
  simpa using h

/-! ### Governor control law (C4) -/

/-- C4: on every governor update at least 500 ms after the previously
processed update, with `queue_pressure = max(0, pending − 20)/50` and
`decode_pressure = max(0, decode_ms − 10)/20` plus 0.3 when
`bandwidth_kbps > 5000` and 0.5 when backpressure is heavy: if the total
pressure exceeds 0.1 the quality is divided by `1 + min(total, 0.5)`,
otherwise increased by 2, then clamped to `[min_q, max_q]`; the new quality
is applied (to both `current_quality` and `last_applied_quality`) only if
it differs from the last applied quality by more than 5 or it newly equals
a clamp bound; an update within 500 ms of the previous one changes no
state. -/
theorem adaptive_governor_control_law (s : GovernorState) (cs : ClientStats) (now : ℚ)
    (hmm : s.min_quality ≤ s.max_quality) (hdb : s.quality_deadband = 5) :
    (now - s.last_update_time < 1/2 → update s cs now = s) ∧
    (1/2 ≤ now - s.last_update_time →
      ∀ qp dp total nq : ℚ,
        qp = max 0 (cs.pending_tiles - 20) / 50 →
        dp = max 0 (cs.avg_decode_ms - 10) / 20 +
          (if cs.bandwidth_kbps > 5000 then 3/10 else 0) +
          (if cs.backpressure = "heavy" then 1/2 else 0) →
        total = qp + dp →
        nq = min s.max_quality (max s.min_quality
          (if total > 1/10 then s.current_quality / (1 + min total (1/2))
           else s.current_quality + 2)) →
        ((|nq - s.last_applied_quality| > 5 ∨
            (nq = s.min_quality ∧ s.last_applied_quality ≠ s.min_quality) ∨
            (nq = s.max_quality ∧ s.last_applied_quality ≠ s.max_quality)) →
          (update s cs now).current_quality = nq ∧
          (update s cs now).last_applied_quality = nq) ∧
        (¬(|nq - s.last_applied_quality| > 5 ∨
            (nq = s.min_quality ∧ s.last_applied_quality ≠ s.min_quality) ∨
            (nq = s.max_quality ∧ s.last_applied_quality ≠ s.max_quality)) →
          (update s cs now).current_quality = s.current_quality ∧
          (update s cs now).last_applied_quality = s.last_applied_quality)) := by
  constructor
  · intro h
    unfold update
    rw [if_pos h]
  · intro h qp dp total nq hqp hdp htotal hnq
    have hcond : ¬ (now - s.last_update_time < 1/2) := not_lt.mpr h
    have hdpe : (if cs.backpressure = "heavy" then
          (if cs.bandwidth_kbps > 5000 then max 0 (cs.avg_decode_ms - 10) / 20 + 3/10
           else max 0 (cs.avg_decode_ms - 10) / 20) + 1/2
        else (if cs.bandwidth_kbps > 5000 then max 0 (cs.avg_decode_ms - 10) / 20 + 3/10
           else max 0 (cs.avg_decode_ms - 10) / 20)) = dp := by
      rw [hdp]
      split_ifs <;> ring
    have hclamp : ∀ X : ℚ, max s.min_quality (min s.max_quality X) =
        min s.max_quality (max s.min_quality X) := by
      intro X
      rw [max_min_distrib_left, max_eq_right hmm]
    simp only [update, if_neg hcond]
    rw [hdpe, ← hqp, ← htotal]
    simp only [hclamp]
    rw [← hnq, hdb]
    refine ⟨fun ha => ?_, fun hna => ?_⟩
    · rw [if_pos ha, if_pos ha]
      exact ⟨rfl, rfl⟩
    · rw [if_neg hna, if_neg hna]
      exact ⟨rfl, rfl⟩

/-- C4 (witness): an update 250 ms after the previous one leaves a
BALANCED/AIR governor state unchanged. -/
theorem adaptive_governor_control_law_witness :
    update ⟨"BALANCED", "AIR", 20, 50, 75, 20, 90, 128, 0, 75, 5, "NORMAL", 100, true, 0,
        200, 80, 400⟩ ⟨30, 5, 5, "NORMAL", 80, true, 100, "none"⟩ (1/4) =
      ⟨"BALANCED", "AIR", 20, 50, 75, 20, 90, 128, 0, 75, 5, "NORMAL", 100, true, 0,
        200, 80, 400⟩ :=
  (adaptive_governor_control_law ⟨"BALANCED", "AIR", 20, 50, 75, 20, 90, 128, 0, 75, 5,
    "NORMAL", 100, true, 0, 200, 80, 400⟩ ⟨30, 5, 5, "NORMAL", 80, true, 100, "none"⟩
    (1/4) (by norm_num) rfl).1 (by norm_num)

/-! ### Engine registry (C5, C6, C7) -/

/-- C6 (code bug): the registry clears `optimize_capture_pipeline` for a
monitor whose blacklist entry is younger than 60 s, and it does record a
blacklist entry and still return the engine on an MSS downgrade — but the
claim's "the engine is built with the portable backend" fails on the code:
`CaptureFactory.create` (`src/core/capture.py` lines 294-308) ignores
`optimize_pipeline` when selecting the backend and returns
`VeloxRustCapture` whenever `velox_core` loads, so a monitor blacklisted
10 s ago is rebuilt on the NATIVE backend (first two conjuncts), defeating
the forced-compat machinery that threads the cleared flag into the factory
("Forcing compat mode", `air_server_app.py` line 83) and the spec's
blacklist-monotonicity invariant.  The remaining conjuncts evaluate the
true half of the claim: a native request that constructs an MSS source
records `(monitor_id, now)` and the engine is still returned and
registered. -/
theorem blacklisted_monitor_can_still_get_native_backend :
    (get_or_create_engine ⟨true, true⟩ ⟨true, true⟩ 20
        ⟨[], [(0, 10)], [], [], 0, true, false, "zh_TW"⟩ 0 false).2 =
      some ⟨⟨⟨"VeloxRust (Native)", 0, false⟩, 0⟩, [], true⟩ ∧
    strStartsWith "VeloxRust (Native)" "MSS" = false ∧
    (get_or_create_engine ⟨false, true⟩ ⟨false, true⟩ 30
        ⟨[], [], [], [], 0, true, false, "zh_TW"⟩ 0 false).1.blacklist.lookup 0 =
      some 30 ∧
    (get_or_create_engine ⟨false, true⟩ ⟨false, true⟩ 30
        ⟨[], [], [], [], 0, true, false, "zh_TW"⟩ 0 false).2 =
      some ⟨⟨⟨"MSS (CPU)", 1, true⟩, 0⟩, [], true⟩ ∧
    (get_or_create_engine ⟨false, true⟩ ⟨false, true⟩ 30
        ⟨[], [], [], [], 0, true, false, "zh_TW"⟩ 0 false).1.engines.lookup 0 =
      some ⟨⟨⟨"MSS (CPU)", 1, true⟩, 0⟩, [], true⟩ := by
  have hba : blacklistActive ⟨[], [(0, 10)], [], [], 0, true, false, "zh_TW"⟩ 0 20 = true := by
    simp only [blacklistActive, List.lookup, beq_self_eq_true, if_true, decide_eq_true_eq]
    norm_num
  refine ⟨?_, by decide, by decide, by decide, by decide⟩
  simp [get_or_create_engine, hba, gcoeCore, mkEngineCfg, streamEngineInit,
    captureFactoryCreate, setKey, removeKey, List.lookup]

/-- C7 (code bug): when the broadcast loop's driver-fault handler rebuilds
the engine via `get_or_create_engine(m, force_compat=True)`, the viewers of
the replaced slot are NOT kept: the new `engine_data` is created with
`"clients": set()` (line 120) and the old slot's viewer set is discarded
with the popped slot, so viewer 42 — a member of the replaced slot — is
absent from the rebuilt slot.  The spec ("keep viewers", §7 and §4.8) is
the documented intent; the code drops them. -/
theorem rebuild_after_driver_fault_drops_viewers :
    (get_or_create_engine ⟨true, true⟩ ⟨true, true⟩ 0
        ⟨[(0, ⟨⟨⟨"VeloxRust (Native)", 0, true⟩, 0⟩, [42], false⟩)], [], [], [], 0, true,
          false, "zh_TW"⟩ 0 true).2 =
      some ⟨⟨⟨"VeloxRust (Native)", 0, false⟩, 0⟩, [], true⟩ ∧
    (get_or_create_engine ⟨true, true⟩ ⟨true, true⟩ 0
        ⟨[(0, ⟨⟨⟨"VeloxRust (Native)", 0, true⟩, 0⟩, [42], false⟩)], [], [], [], 0, true,
          false, "zh_TW"⟩ 0 true).1.engines.lookup 0 =
      some ⟨⟨⟨"VeloxRust (Native)", 0, false⟩, 0⟩, [], true⟩ ∧
    (42 : Viewer) ∉
      (EngineSlot.clients ⟨⟨⟨"VeloxRust (Native)", 0, false⟩, 0⟩, [], true⟩) := by
  decide

end VeloxAir
